import Mathlib

/-!
Verification of the status aggregation engine of
`openshift-platform-operators` (controllers/aggregated_clusteroperator_controller.go).

The Go code is shallowly embedded: pure logic becomes Lean functions; the
reconciler's effects (the Get of the composite target, the List of members,
the deferred status write) become explicit inputs and an explicit trace of
written statuses.  The `aggregated-co` builder/writer package and the
Kubernetes error-aggregation helper are not part of this repository's
source tree; the builder and writer are modelled from the spec, the
aggregation helper from its well-known upstream definition
(k8s.io/apimachinery/pkg/util/errors, `aggregate.Error`).
-/

namespace AggregatedCO

/-- A status condition of a member resource.  Of the Kubernetes condition
fields only `Reason` is read by this controller (line 136 of the source);
the other fields (Type, Status, Message, LastTransitionTime) are never
inspected and are omitted from the embedding. -/
structure Condition where
  reason : String
deriving Repr, DecidableEq

/-- A PlatformOperator member: its name (`po.GetName()`) and its status
condition sequence (`po.Status.Conditions`). -/
structure PlatformOperator where
  name : String
  conditions : List Condition
deriving Repr, DecidableEq

/-- platformtypes.ReasonSourceFailed -/
def ReasonSourceFailed : String := "SourceFailed"

/-- platformtypes.ReasonApplyFailed -/
def ReasonApplyFailed : String := "ApplyFailed"

/-- The condition test on line 136 of the source:
`condition.Reason == ReasonSourceFailed || condition.Reason == ReasonApplyFailed`. -/
def isFailingReason (r : String) : Bool :=
  r == ReasonSourceFailed || r == ReasonApplyFailed

/-- One escaped character of Go's `%q` string formatting
(strconv.Quote): quote and backslash are backslash-escaped, common
control characters use their mnemonic escapes, other printable ASCII
characters are unchanged.  The controller only ever formats the reasons
`"SourceFailed"` and `"ApplyFailed"` this way, on which the model is
exact. -/
def goQuoteChar (c : Char) : String :=
  if c = '"' then "\\\""
  else if c = '\\' then "\\\\"
  else if c = '\n' then "\\n"
  else if c = '\t' then "\\t"
  else if c = '\r' then "\\r"
  else String.singleton c

/-- Go's `%q` verb applied to a string: the escaped body wrapped in
double quotes. -/
def goQuote (s : String) : String :=
  "\"" ++ String.join (s.data.map goQuoteChar) ++ "\""

/-- The message built on line 138 of the source:
`fmt.Sprintf("%s is failing: %q", po.GetName(), condition.Reason)`. -/
def failingMessage (name reason : String) : String :=
  name ++ " is failing: " ++ goQuote reason

/-- POStatusErrors (lines 120–123): the parallel pair of failing member
references and their error messages.  Errors carry only their message, so
`FailingErrors` is a list of message strings. -/
structure POStatusErrors where
  FailingPOs : List PlatformOperator
  FailingErrors : List String
deriving Repr, DecidableEq

/-- The inner loop of `inspectPlatformOperators` (lines 135–140): scan one
member's condition sequence, appending the member and a message to the
accumulator for every condition whose reason is a failure reason. -/
def inspectConditions (po : PlatformOperator) : List Condition → POStatusErrors → POStatusErrors
  | [], acc => acc
  | c :: rest, acc =>
      if isFailingReason c.reason then
        inspectConditions po rest
          ⟨acc.FailingPOs ++ [po], acc.FailingErrors ++ [failingMessage po.name c.reason]⟩
      else
        inspectConditions po rest acc

/-- The outer loop of `inspectPlatformOperators` (lines 131–141): traverse
the member list in order. -/
def inspectLoop : List PlatformOperator → POStatusErrors → POStatusErrors
  | [], acc => acc
  | po :: rest, acc => inspectLoop rest (inspectConditions po po.conditions acc)

/-- inspectPlatformOperators (lines 128–149): run both loops starting from
the empty accumulator and return it only if it is non-empty (lines
144–146); `none` models the nil return on line 148. -/
def inspectPlatformOperators (POList : List PlatformOperator) : Option POStatusErrors :=
  let POstatuses := inspectLoop POList ⟨[], []⟩
  if POstatuses.FailingPOs.length > 0 || POstatuses.FailingErrors.length > 0 then
    some POstatuses
  else
    none

/-- openshiftconfigv1.ConditionStatus is a string type; `ConditionTrue`. -/
def ConditionTrue : String := "True"

/-- openshiftconfigv1.ConditionStatus value `ConditionFalse`. -/
def ConditionFalse : String := "False"

/-- Modelled from the spec: CompositeStatus (§3) — exactly three named
condition slots, `Progressing {status, reason}`, `Degraded {status}`,
`Available {status, reason, message}`.  The `aggregated-co` builder
package holding the Go struct is not under this repository's source
tree. -/
structure CompositeStatus where
  progressing : String
  progressingReason : String
  degraded : String
  available : String
  availableMessage : String
  availableReason : String
deriving Repr, DecidableEq

/-- Modelled from the spec: `aggregatedco.NewBuilder()` (§4.2) — a fresh
accumulator.  Its zero value is never observed: Reconcile overwrites all
three slots before any exit path can run the deferred write. -/
def NewBuilder : CompositeStatus :=
  ⟨"", "", "", "", "", ""⟩

/-- Modelled from the spec: `WithProgressing(status, reason)` (§4.2), a
setter with last-write-wins semantics. -/
def WithProgressing (b : CompositeStatus) (status reason : String) : CompositeStatus :=
  { b with progressing := status, progressingReason := reason }

/-- Modelled from the spec: `WithDegraded(status)` (§4.2). -/
def WithDegraded (b : CompositeStatus) (status : String) : CompositeStatus :=
  { b with degraded := status }

/-- Modelled from the spec: `WithAvailable(status, message, reason)`
(§4.2); argument order follows the call sites on lines 82, 92, 101 and
105 of the source, where the third argument is the reason
("No POs Found", "PO In An Error State", "POs Are Healthy"). -/
def WithAvailable (b : CompositeStatus) (status message reason : String) : CompositeStatus :=
  { b with available := status, availableMessage := message, availableReason := reason }

/-- The loop body of `aggregate.Error` from
k8s.io/apimachinery/pkg/util/errors (the library behind
`utilerror.NewAggregate(...).Error()` on line 101 of the source): visit
the messages in order, skip one already seen, separate accepted messages
after the first with ", ". -/
def aggregateVisit : List String → List String → String → List String × String
  | [], seen, result => (seen, result)
  | msg :: rest, seen, result =>
      if seen.contains msg then
        aggregateVisit rest seen result
      else
        let seen := seen ++ [msg]
        let result := if seen.length > 1 then result ++ ", " ++ msg else result ++ msg
        aggregateVisit rest seen result

/-- `utilerror.NewAggregate(errs).Error()`: empty input gives "", a single
error gives its message unchanged, otherwise the deduplicated messages are
joined with ", " and bracketed unless only one distinct message remains. -/
def aggregateError (errs : List String) : String :=
  match errs with
  | [] => ""
  | [e] => e
  | _ =>
      let (seen, result) := aggregateVisit errs [] ""
      if seen.length = 1 then result else "[" ++ result ++ "]"

/-- The error returned by the client Get of the composite target; only
whether it is a NotFound error is observed (via `client.IgnoreNotFound`). -/
structure GetError where
  isNotFound : Bool
deriving Repr, DecidableEq

/-- The error value Reconcile can return to its caller. -/
inductive ReconcileError where
  | getError (e : GetError)
  | listError
deriving Repr, DecidableEq

/-- `client.IgnoreNotFound` (line 71): a NotFound error is swallowed,
any other Get error is returned. -/
def ignoreNotFound (e : GetError) : Option ReconcileError :=
  if e.isNotFound then none else some (ReconcileError.getError e)

/-- The observable outcome of one Reconcile invocation: the error it
returns and the trace of statuses passed to `coWriter.UpdateStatus`,
in order. -/
structure ReconcileOutcome where
  returnedError : Option ReconcileError
  writes : List CompositeStatus
deriving Repr, DecidableEq

/-- Reconcile (lines 59–108).  Its two effectful reads become inputs:
`getResult` is the outcome of fetching the composite target (its contents
are never read, only the error matters) and `listResult` the outcome of
listing the PlatformOperators.  The deferred `UpdateStatus` call
(lines 73–77), registered only after a successful Get, is modelled as the
single entry of `writes`, carrying the builder's state at function exit. -/
def Reconcile (getResult : Option GetError) (listResult : Except Unit (List PlatformOperator)) :
    ReconcileOutcome :=
  match getResult with
  | some e => { returnedError := ignoreNotFound e, writes := [] }
  | none =>
    -- defaults (lines 80–82): Progressing True, Degraded False, Available False
    let coBuilder := NewBuilder
    let coBuilder := WithProgressing coBuilder ConditionTrue ""
    let coBuilder := WithDegraded coBuilder ConditionFalse
    let coBuilder := WithAvailable coBuilder ConditionFalse "" ""
    match listResult with
    | Except.error _ =>
        { returnedError := some ReconcileError.listError, writes := [coBuilder] }
    | Except.ok poList =>
        if poList.length = 0 then
          let coBuilder := WithAvailable coBuilder ConditionTrue "" "No POs Found"
          { returnedError := none, writes := [coBuilder] }
        else
          match inspectPlatformOperators poList with
          | some statusErrorCheck =>
              let coBuilder := WithDegraded coBuilder ConditionTrue
              let coBuilder := WithAvailable coBuilder ConditionFalse
                (aggregateError statusErrorCheck.FailingErrors) "PO In An Error State"
              { returnedError := none, writes := [coBuilder] }
          | none =>
              let coBuilder := WithAvailable coBuilder ConditionTrue
                "All POs in a successful state" "POs Are Healthy"
              { returnedError := none, writes := [coBuilder] }

/-- The Initial state of §4.2: the defaults set on lines 80–82 before any
member data is known. -/
def initialStatus : CompositeStatus :=
  WithAvailable (WithDegraded (WithProgressing NewBuilder ConditionTrue "") ConditionFalse)
    ConditionFalse "" ""

/-- The empty-fleet terminal of §4.2 (line 92 of the source). -/
def emptyFleetStatus : CompositeStatus :=
  WithAvailable initialStatus ConditionTrue "" "No POs Found"

/-- The failing terminal of §4.2 (lines 100–101 of the source), carrying
the combined failure message. -/
def failingStatus (message : String) : CompositeStatus :=
  WithAvailable (WithDegraded initialStatus ConditionTrue) ConditionFalse message
    "PO In An Error State"

/-- The healthy terminal of §4.2 (line 105 of the source). -/
def healthyStatus : CompositeStatus :=
  WithAvailable initialStatus ConditionTrue "All POs in a successful state" "POs Are Healthy"

/-- The status Reconcile holds at exit after a successful fetch and a
successful list, as a function of the member list: the branch structure
of lines 90–105 of the source. -/
def finalStatusOf (poList : List PlatformOperator) : CompositeStatus :=
  if poList.length = 0 then
    emptyFleetStatus
  else
    match inspectPlatformOperators poList with
    | some r => failingStatus (aggregateError r.FailingErrors)
    | none => healthyStatus

/-- Modelled from the spec: StatusWriter.UpdateStatus (§4.3) — compare the
desired status field-by-field against the persisted one (absent when the
target has never been written); if identical perform no write, otherwise
issue exactly one write.  Returns the store's new contents and whether a
write was issued.  The `aggregated-co` writer package is not under this
repository's source tree. -/
def UpdateStatus (persisted : Option CompositeStatus) (desired : CompositeStatus) :
    Option CompositeStatus × Bool :=
  match persisted with
  | some p => if p = desired then (persisted, false) else (some desired, true)
  | none => (some desired, true)

/-- One full pipeline invocation against a status store: run Reconcile
with a successful fetch and a successfully listed member set, then feed
each traced write through UpdateStatus.  Returns the store's new contents
and the number of actual writes issued. -/
def runInvocation (persisted : Option CompositeStatus) (poList : List PlatformOperator) :
    Option CompositeStatus × Nat :=
  (Reconcile none (Except.ok poList)).writes.foldl
    (fun st s =>
      let r := UpdateStatus st.1 s
      (r.1, st.2 + if r.2 then 1 else 0))
    (persisted, 0)

/-- The per-condition failure entries of the member list, in traversal
order: one `(member, message)` pair per condition whose reason is in the
failure vocabulary.  This is the specification-side characterisation that
the loops of `inspectPlatformOperators` are proved to compute. -/
def reportEntries (pos : List PlatformOperator) : List (PlatformOperator × String) :=
  pos.flatMap fun po =>
    (po.conditions.filter fun c => isFailingReason c.reason).map
      fun c => (po, failingMessage po.name c.reason)

/-- The comma-separated join of a list of messages, order preserved and
nothing dropped. -/
def joinList : List String → String
  | [] => ""
  | [m] => m
  | m :: rest => m ++ ", " ++ joinList rest

/-- `", " ++ m` for each message in turn: the tail of a comma join. -/
def commaTail : List String → String
  | [] => ""
  | m :: rest => ", " ++ m ++ commaTail rest

/-- All messages joined into one combined message with order preserved and
nothing dropped: one message stands alone, several are comma-joined inside
brackets.  This is the claim's reading of the combined error message, to
be compared with the code's `aggregateError`. -/
def joinedMessages (msgs : List String) : String :=
  match msgs with
  | [] => ""
  | [m] => m
  | _ => "[" ++ joinList msgs ++ "]"

/-! ## Characterisation of the inspection loops -/

/-- The inner loop appends, in condition order, one member reference and
one message per condition with a failure reason. -/
theorem inspectConditions_eq (po : PlatformOperator) (conds : List Condition)
    (acc : POStatusErrors) :
    inspectConditions po conds acc =
      ⟨acc.FailingPOs ++ (conds.filter fun c => isFailingReason c.reason).map (fun _ => po),
       acc.FailingErrors ++ (conds.filter fun c => isFailingReason c.reason).map
         (fun c => failingMessage po.name c.reason)⟩ := by
  induction conds generalizing acc with
  | nil => simp [inspectConditions]
  | cons c rest ih =>
    by_cases h : isFailingReason c.reason
    · simp [inspectConditions, h, ih, List.filter_cons]
    · simp [inspectConditions, h, ih, List.filter_cons]

/-- The outer loop appends the per-condition entries of the members in
traversal order. -/
theorem inspectLoop_eq (pos : List PlatformOperator) (acc : POStatusErrors) :
    inspectLoop pos acc =
      ⟨acc.FailingPOs ++ (reportEntries pos).map Prod.fst,
       acc.FailingErrors ++ (reportEntries pos).map Prod.snd⟩ := by
  induction pos generalizing acc with
  | nil => simp [inspectLoop, reportEntries]
  | cons po rest ih =>
    simp [inspectLoop, inspectConditions_eq, ih, reportEntries, List.map_map,
      Function.comp_def]

/-- `inspectPlatformOperators` computes exactly the per-condition failure
entries in input traversal order, packaged as the parallel pair, and
returns `none` exactly when there are no entries. -/
theorem inspect_spec (pos : List PlatformOperator) :
    inspectPlatformOperators pos =
      if reportEntries pos = [] then none
      else some ⟨(reportEntries pos).map Prod.fst, (reportEntries pos).map Prod.snd⟩ := by
  unfold inspectPlatformOperators
  rw [inspectLoop_eq]
  by_cases h : reportEntries pos = []
  · simp [h]
  · have hlen : 0 < (reportEntries pos).length := List.length_pos.mpr h
    simp [h, hlen]

/-- A failing reason is exactly `SourceFailed` or `ApplyFailed`. -/
theorem isFailingReason_iff (r : String) :
    isFailingReason r = true ↔ (r = ReasonSourceFailed ∨ r = ReasonApplyFailed) := by
  simp [isFailingReason]

/-- The entry list is empty exactly when no member has a condition with a
failing reason. -/
theorem reportEntries_eq_nil_iff (pos : List PlatformOperator) :
    reportEntries pos = [] ↔
      ¬ ∃ po ∈ pos, ∃ c ∈ po.conditions, isFailingReason c.reason = true := by
  rw [List.eq_nil_iff_forall_not_mem]
  constructor
  · rintro h ⟨po, hpo, c, hc, hfail⟩
    exact h (po, failingMessage po.name c.reason)
      (List.mem_flatMap.mpr ⟨po, hpo,
        List.mem_map.mpr ⟨c, List.mem_filter.mpr ⟨hc, hfail⟩, rfl⟩⟩)
  · rintro h x hx
    rcases List.mem_flatMap.mp hx with ⟨po, hpo, hx⟩
    rcases List.mem_map.mp hx with ⟨c, hc, rfl⟩
    rcases List.mem_filter.mp hc with ⟨hc, hfail⟩
    exact h ⟨po, hpo, c, hc, hfail⟩

/-- C1: Inspect returns a non-nil report exactly when some member has a
condition whose reason is `SourceFailed` or `ApplyFailed`; in particular
the empty member list yields `none` (the healthy verdict), and the
function is total (it never raises). -/
theorem claim_C1_inspect_nonnil_iff_some_member_failing :
    inspectPlatformOperators [] = none ∧
    ∀ pos : List PlatformOperator,
      inspectPlatformOperators pos ≠ none ↔
        ∃ po ∈ pos, ∃ c ∈ po.conditions,
          c.reason = ReasonSourceFailed ∨ c.reason = ReasonApplyFailed := by
  constructor
  · rfl
  · intro pos
    rw [inspect_spec]
    by_cases h : reportEntries pos = []
    · simp only [h, if_pos rfl]
      simp only [ne_eq, not_true_eq_false, false_iff]
      rw [reportEntries_eq_nil_iff] at h
      simpa [isFailingReason_iff] using h
    · simp only [h, if_neg h]
      simp only [ne_eq, reduceCtorEq, not_false_eq_true, true_iff]
      rw [reportEntries_eq_nil_iff] at h
      rw [not_not] at h
      simpa [isFailingReason_iff] using h

/-- C8: Inspection is a pure function of the member list and its report
is fully determined, in input traversal order, by the per-condition
failure entries: the failing references are the entries' members and the
messages the entries' messages, in exactly that order. -/
theorem claim_C8_inspect_deterministic_order_preserving :
    ∀ pos : List PlatformOperator,
      inspectPlatformOperators pos =
        if reportEntries pos = [] then none
        else some ⟨(reportEntries pos).map Prod.fst, (reportEntries pos).map Prod.snd⟩ :=
  inspect_spec

/-- On a failing reason, Go's `%q` just wraps the reason in double quotes
(both reasons are plain printable ASCII). -/
theorem goQuote_of_failing {r : String} (h : isFailingReason r = true) :
    goQuote r = "\"" ++ r ++ "\"" := by
  rcases (isFailingReason_iff r).mp h with h | h <;> subst h <;> rfl

/-- The synthesized message for a failing condition, spelled out. -/
theorem failingMessage_of_failing {r : String} (n : String)
    (h : isFailingReason r = true) :
    failingMessage n r = n ++ " is failing: \"" ++ r ++ "\"" := by
  rw [failingMessage, goQuote_of_failing h]
  simp only [String.append_assoc]
  rw [← String.append_assoc " is failing: " "\"" (r ++ "\"")]
  rfl

/-- The messages of the report are the per-condition messages in
traversal order, each of the quoted form. -/
theorem reportEntries_snd (pos : List PlatformOperator) :
    (reportEntries pos).map Prod.snd =
      pos.flatMap fun po =>
        (po.conditions.filter fun c => isFailingReason c.reason).map
          fun c => po.name ++ " is failing: \"" ++ c.reason ++ "\"" := by
  induction pos with
  | nil => rfl
  | cons po rest ih =>
    simp only [reportEntries, List.flatMap_cons, List.map_append, List.map_map] at ih ⊢
    rw [ih]
    congr 1
    apply List.map_congr_left
    intro c hc
    have hfail : isFailingReason c.reason = true := (List.mem_filter.mp hc).2
    simp [Function.comp_def, failingMessage_of_failing po.name hfail]

/-- C3: with a successful fetch and an empty member list, Reconcile
returns no error and writes a status with Available=True, reason
"No POs Found", and Degraded still at its initial False value. -/
theorem claim_C3_empty_fleet_available_no_pos_found :
    (Reconcile none (Except.ok ([] : List PlatformOperator))).returnedError = none ∧
    (Reconcile none (Except.ok ([] : List PlatformOperator))).writes = [emptyFleetStatus] ∧
    emptyFleetStatus.available = ConditionTrue ∧
    emptyFleetStatus.availableReason = "No POs Found" ∧
    emptyFleetStatus.degraded = ConditionFalse ∧
    emptyFleetStatus.degraded = initialStatus.degraded :=
  ⟨rfl, rfl, rfl, rfl, rfl, rfl⟩

/-- C4: every message in a report is of the exact form
`<member-name> is failing: "<reason>"`, one message per condition with a
failing reason, in traversal order — so a member with two failing
conditions contributes two messages. -/
theorem claim_C4_message_form_one_per_failing_condition
    (pos : List PlatformOperator) (r : POStatusErrors)
    (h : inspectPlatformOperators pos = some r) :
    r.FailingErrors =
      pos.flatMap fun po =>
        (po.conditions.filter fun c => isFailingReason c.reason).map
          fun c => po.name ++ " is failing: \"" ++ c.reason ++ "\"" := by
  rw [inspect_spec] at h
  by_cases hnil : reportEntries pos = []
  · rw [if_pos hnil] at h
    exact absurd h (by simp)
  · rw [if_neg hnil] at h
    cases h
    exact reportEntries_snd pos

/-- Witness for C4: the spec's §8 example, member B with one SourceFailed
condition, yields exactly the message `B is failing: "SourceFailed"`. -/
theorem claim_C4_witness :
    POStatusErrors.FailingErrors
        ⟨[⟨"B", [⟨"SourceFailed"⟩]⟩], ["B is failing: \"SourceFailed\""]⟩ =
      [⟨"B", [⟨"SourceFailed"⟩]⟩].flatMap
        fun po : PlatformOperator =>
          (po.conditions.filter fun c => isFailingReason c.reason).map
            fun c => po.name ++ " is failing: \"" ++ c.reason ++ "\"" :=
  claim_C4_message_form_one_per_failing_condition
    [⟨"B", [⟨"SourceFailed"⟩]⟩]
    ⟨[⟨"B", [⟨"SourceFailed"⟩]⟩], ["B is failing: \"SourceFailed\""]⟩
    (by rfl)

/-! ## Reconcile after a successful fetch -/

/-- With a successful fetch and a successful list, Reconcile returns no
error and writes exactly the status `finalStatusOf` determines from the
member list. -/
theorem reconcile_ok_writes (poList : List PlatformOperator) :
    Reconcile none (Except.ok poList) =
      { returnedError := none, writes := [finalStatusOf poList] } := by
  unfold Reconcile finalStatusOf
  by_cases h : poList.length = 0
  · simp only [if_pos h]
    rfl
  · simp only [if_neg h]
    cases hi : inspectPlatformOperators poList <;> simp only [hi] <;> rfl

/-- A non-empty report implies a non-empty member list. -/
theorem inspect_some_ne_nil {pos : List PlatformOperator} {r : POStatusErrors}
    (h : inspectPlatformOperators pos = some r) : pos ≠ [] := by
  intro hnil
  subst hnil
  exact absurd h (by simp [inspectPlatformOperators, inspectLoop])

/-- C5: after a successful fetch, the deferred status write runs exactly
once on every exit path; when listing members fails, Reconcile returns
the list error to its caller while the write carries the Initial state
(Progressing=True, Degraded=False, Available=False). -/
theorem claim_C5_deferred_write_exactly_once :
    (∀ listResult, (Reconcile none listResult).writes.length = 1) ∧
    (Reconcile none (Except.error ())).returnedError = some ReconcileError.listError ∧
    (Reconcile none (Except.error ())).writes = [initialStatus] ∧
    initialStatus.progressing = ConditionTrue ∧
    initialStatus.degraded = ConditionFalse ∧
    initialStatus.available = ConditionFalse := by
  refine ⟨?_, rfl, rfl, rfl, rfl, rfl⟩
  intro lr
  cases lr with
  | error e => rfl
  | ok poList => rw [reconcile_ok_writes]; rfl

/-- C10: when fetching the composite target fails, no status write occurs
at all; a NotFound error is swallowed (Reconcile returns success), any
other Get error is propagated. -/
theorem claim_C10_get_failure_no_write_notfound_success :
    ∀ (e : GetError) (listResult : Except Unit (List PlatformOperator)),
      (Reconcile (some e) listResult).writes = [] ∧
      (Reconcile (some e) listResult).returnedError =
        (if e.isNotFound then none else some (ReconcileError.getError e)) := by
  intro e lr
  exact ⟨rfl, rfl⟩

/-- The failing terminal is recognisable by its Available reason,
whatever the combined message is. -/
theorem failingStatus_availableReason (m : String) :
    (failingStatus m).availableReason = "PO In An Error State" := rfl

/-- C7: after a successful fetch, every invocation ends with exactly one
written status, and that status is exactly one of the §4.2 combinations —
the Initial state (evaluation aborted early), the empty-fleet terminal,
a failing terminal, or the healthy terminal; the four are mutually
exclusive. -/
theorem claim_C7_exactly_one_terminal_combination :
    ∀ listResult : Except Unit (List PlatformOperator),
      ∃ s : CompositeStatus,
        (Reconcile none listResult).writes = [s] ∧
        ((s = initialStatus ∧ s ≠ emptyFleetStatus ∧ (¬ ∃ m, s = failingStatus m) ∧
            s ≠ healthyStatus) ∨
         (s = emptyFleetStatus ∧ s ≠ initialStatus ∧ (¬ ∃ m, s = failingStatus m) ∧
            s ≠ healthyStatus) ∨
         ((∃ m, s = failingStatus m) ∧ s ≠ initialStatus ∧ s ≠ emptyFleetStatus ∧
            s ≠ healthyStatus) ∨
         (s = healthyStatus ∧ s ≠ initialStatus ∧ s ≠ emptyFleetStatus ∧
            ¬ ∃ m, s = failingStatus m)) := by
  have hfail_init : ∀ m, initialStatus ≠ failingStatus m := by
    intro m h
    have h2 := congrArg CompositeStatus.availableReason h
    rw [failingStatus_availableReason] at h2
    exact absurd h2 (by decide)
  have hfail_empty : ∀ m, emptyFleetStatus ≠ failingStatus m := by
    intro m h
    have h2 := congrArg CompositeStatus.availableReason h
    rw [failingStatus_availableReason] at h2
    exact absurd h2 (by decide)
  have hfail_healthy : ∀ m, healthyStatus ≠ failingStatus m := by
    intro m h
    have h2 := congrArg CompositeStatus.availableReason h
    rw [failingStatus_availableReason] at h2
    exact absurd h2 (by decide)
  intro lr
  cases lr with
  | error e =>
    refine ⟨initialStatus, rfl, Or.inl ⟨rfl, by decide, ?_, by decide⟩⟩
    rintro ⟨m, hm⟩
    exact hfail_init m hm
  | ok poList =>
    rw [reconcile_ok_writes]
    refine ⟨finalStatusOf poList, rfl, ?_⟩
    unfold finalStatusOf
    by_cases h : poList.length = 0
    · rw [if_pos h]
      refine Or.inr (Or.inl ⟨rfl, by decide, ?_, by decide⟩)
      rintro ⟨m, hm⟩
      exact hfail_empty m hm
    · rw [if_neg h]
      cases hi : inspectPlatformOperators poList with
      | some r =>
        refine Or.inr (Or.inr (Or.inl ⟨⟨aggregateError r.FailingErrors, rfl⟩, ?_, ?_, ?_⟩))
        · intro hm
          exact hfail_init _ hm.symm
        · intro hm
          exact hfail_empty _ hm.symm
        · intro hm
          exact hfail_healthy _ hm.symm
      | none =>
        refine Or.inr (Or.inr (Or.inr ⟨rfl, by decide, by decide, ?_⟩))
        rintro ⟨m, hm⟩
        exact hfail_healthy m hm

/-! ## The combined error message -/

/-- With a non-empty seen set and duplicate-free fresh messages, the
visit loop appends every message, each preceded by ", ". -/
theorem aggregateVisit_nodup (msgs : List String) (seen : List String) (result : String)
    (hne : seen ≠ []) (hd : msgs.Nodup) (hdisj : ∀ m ∈ msgs, m ∉ seen) :
    aggregateVisit msgs seen result = (seen ++ msgs, result ++ commaTail msgs) := by
  induction msgs generalizing seen result with
  | nil => simp [aggregateVisit, commaTail, String.append_empty]
  | cons m rest ih =>
    have hm : m ∉ seen := hdisj m (by simp)
    have hcon : seen.contains m = false := by simpa using hm
    have hlen : 1 < (seen ++ [m]).length := by
      have := List.length_pos.mpr hne
      simp only [List.length_append, List.length_singleton]
      omega
    rw [aggregateVisit, if_neg (by simpa using hm)]
    show aggregateVisit rest (seen ++ [m])
        (if (seen ++ [m]).length > 1 then result ++ ", " ++ m else result ++ m) =
      (seen ++ m :: rest, result ++ commaTail (m :: rest))
    rw [if_pos hlen,
      ih (seen ++ [m]) (result ++ ", " ++ m) (by simp)
        (List.nodup_cons.mp hd).2
        (fun x hx => by
          simp only [List.mem_append, List.mem_singleton]
          rintro (hxs | rfl)
          · exact hdisj x (List.mem_cons_of_mem m hx) hxs
          · exact (List.nodup_cons.mp hd).1 hx)]
    simp [commaTail, String.append_assoc]

/-- Starting from the empty seen set, a duplicate-free message list is
reproduced whole: the first message bare, the rest comma-prefixed. -/
theorem aggregateVisit_start (m : String) (rest : List String)
    (hd : (m :: rest).Nodup) :
    aggregateVisit (m :: rest) [] "" = (m :: rest, m ++ commaTail rest) := by
  rw [aggregateVisit]
  simp only [List.contains_nil, Bool.false_eq_true, if_false, List.nil_append,
    List.length_singleton]
  rw [if_neg (by omega)]
  cases rest with
  | nil => simp [aggregateVisit, commaTail, String.append_empty]
  | cons r rs =>
    rw [aggregateVisit_nodup (r :: rs) [m] ("" ++ m) (by simp)
      (List.nodup_cons.mp hd).2
      (fun x hx => by
        simp only [List.mem_singleton]
        rintro rfl
        exact (List.nodup_cons.mp hd).1 hx)]
    simp

/-- `joinList` splits into head and comma tail. -/
theorem joinList_cons (m : String) (rest : List String) :
    joinList (m :: rest) = m ++ commaTail rest := by
  induction rest generalizing m with
  | nil => simp [joinList, commaTail, String.append_empty]
  | cons r rs ih =>
    rw [show joinList (m :: r :: rs) = m ++ ", " ++ joinList (r :: rs) from rfl,
      ih, commaTail]
    simp [String.append_assoc]

/-- On a duplicate-free message list the code's aggregation drops
nothing: it is exactly all messages joined in order (bracketed when there
are several). -/
theorem aggregateError_nodup (msgs : List String) (hd : msgs.Nodup) :
    aggregateError msgs = joinedMessages msgs := by
  match msgs with
  | [] => rfl
  | [m] => rfl
  | m1 :: m2 :: rest =>
    rw [show aggregateError (m1 :: m2 :: rest) =
          (let p := aggregateVisit (m1 :: m2 :: rest) [] ""
           if p.1.length = 1 then p.2 else "[" ++ p.2 ++ "]") from rfl,
      show joinedMessages (m1 :: m2 :: rest) =
          "[" ++ joinList (m1 :: m2 :: rest) ++ "]" from rfl,
      aggregateVisit_start _ _ hd, joinList_cons]
    simp

/-- C2 (amended): whenever a member has a failing condition, the written
status is the failing terminal — Degraded=True, Available=False, the
constant reason "PO In An Error State", and the message produced by the
error aggregation of all FailureReport messages, which preserves their
order and, whenever no two messages are identical, joins all of them. -/
theorem claim_C2_amended_failing_terminal (poList : List PlatformOperator)
    (r : POStatusErrors)
    (h : inspectPlatformOperators poList = some r) :
    (Reconcile none (Except.ok poList)).writes =
      [failingStatus (aggregateError r.FailingErrors)] ∧
    (failingStatus (aggregateError r.FailingErrors)).degraded = ConditionTrue ∧
    (failingStatus (aggregateError r.FailingErrors)).available = ConditionFalse ∧
    (failingStatus (aggregateError r.FailingErrors)).availableReason =
      "PO In An Error State" ∧
    (failingStatus (aggregateError r.FailingErrors)).availableMessage =
      aggregateError r.FailingErrors ∧
    (r.FailingErrors.Nodup →
      aggregateError r.FailingErrors = joinedMessages r.FailingErrors) := by
  have hne : poList ≠ [] := inspect_some_ne_nil h
  have hlen : ¬ poList.length = 0 := by simpa [List.length_eq_zero] using hne
  refine ⟨?_, rfl, rfl, rfl, rfl, aggregateError_nodup r.FailingErrors⟩
  rw [reconcile_ok_writes]
  simp [finalStatusOf, hlen, h]

/-- Witness for C2: the spec's §8 example — member B with one
SourceFailed condition — reaches the failing terminal with the message
`B is failing: "SourceFailed"`. -/
theorem claim_C2_witness :
    (Reconcile none (Except.ok [⟨"B", [⟨"SourceFailed"⟩]⟩])).writes =
      [failingStatus (aggregateError ["B is failing: \"SourceFailed\""])] :=
  (claim_C2_amended_failing_terminal [⟨"B", [⟨"SourceFailed"⟩]⟩]
    ⟨[⟨"B", [⟨"SourceFailed"⟩]⟩], ["B is failing: \"SourceFailed\""]⟩ (by rfl)).1

/-- Counterexample for C2 as stated: a member with the same failing
reason on two conditions yields two identical FailureReport messages, but
the written combined message carries the line only once — the
aggregation deduplicates, so the message is not all report messages
joined. -/
theorem claim_C2_counterexample :
    (inspectPlatformOperators
        [⟨"A", [⟨"SourceFailed"⟩, ⟨"SourceFailed"⟩]⟩]).map (fun r => r.FailingErrors) =
      some ["A is failing: \"SourceFailed\"", "A is failing: \"SourceFailed\""] ∧
    (Reconcile none
        (Except.ok [⟨"A", [⟨"SourceFailed"⟩, ⟨"SourceFailed"⟩]⟩])).writes.map
        (fun s => s.availableMessage) =
      ["A is failing: \"SourceFailed\""] ∧
    joinedMessages ["A is failing: \"SourceFailed\"", "A is failing: \"SourceFailed\""] =
      "[A is failing: \"SourceFailed\", A is failing: \"SourceFailed\"]" ∧
    ("A is failing: \"SourceFailed\"" : String) ≠
      "[A is failing: \"SourceFailed\", A is failing: \"SourceFailed\"]" := by
  exact ⟨rfl, rfl, rfl, by decide⟩

/-! ## The status writer -/

/-- One pipeline invocation makes exactly one UpdateStatus call, with the
final status of the member list. -/
theorem runInvocation_eq (persisted : Option CompositeStatus)
    (poList : List PlatformOperator) :
    runInvocation persisted poList =
      ((UpdateStatus persisted (finalStatusOf poList)).1,
       if (UpdateStatus persisted (finalStatusOf poList)).2 then 1 else 0) := by
  rw [runInvocation, reconcile_ok_writes]
  simp [List.foldl]

/-- C6: UpdateStatus performs no write when the desired status equals the
persisted one, and invoking the whole pipeline twice with an unchanged
member set issues at most one write — the second invocation writes
nothing. -/
theorem claim_C6_idempotent_at_most_one_write :
    (∀ d : CompositeStatus, UpdateStatus (some d) d = (some d, false)) ∧
    (∀ (persisted : Option CompositeStatus) (poList : List PlatformOperator),
      (runInvocation persisted poList).2 ≤ 1 ∧
      (runInvocation (runInvocation persisted poList).1 poList).2 = 0) := by
  constructor
  · intro d
    simp [UpdateStatus]
  · intro p l
    constructor
    · rw [runInvocation_eq]
      split <;> simp
    · rw [runInvocation_eq, runInvocation_eq]
      rcases p with _ | q
      · simp [UpdateStatus]
      · by_cases hq : q = finalStatusOf l
        · simp [UpdateStatus, hq]
        · simp [UpdateStatus, hq]

/-! ## The shape of the FailureReport -/

/-- Counterexample for C9 as stated: a single failing member with two
failing conditions produces a report with two entries, not one entry per
failing member. -/
theorem claim_C9_counterexample :
    (inspectPlatformOperators [⟨"A", [⟨"SourceFailed"⟩, ⟨"ApplyFailed"⟩]⟩]).map
        (fun r => r.FailingPOs.length) = some 2 ∧
    ([⟨"A", [⟨"SourceFailed"⟩, ⟨"ApplyFailed"⟩]⟩].filter
        (fun po : PlatformOperator =>
          po.conditions.any fun c => isFailingReason c.reason)).length = 1 :=
  ⟨rfl, rfl⟩

/-- C9 (amended): every FailureReport is a parallel pair — equal-length
lists of member references and messages — with exactly one entry per
condition (of any member) whose reason matches the failure vocabulary, so
a member is referenced once per matching condition. -/
theorem claim_C9_amended_parallel_pair_per_condition
    (pos : List PlatformOperator) (r : POStatusErrors)
    (h : inspectPlatformOperators pos = some r) :
    r.FailingPOs.length = r.FailingErrors.length ∧
    r.FailingPOs = (reportEntries pos).map Prod.fst ∧
    r.FailingErrors = (reportEntries pos).map Prod.snd ∧
    r.FailingErrors.length =
      (pos.map fun po =>
        (po.conditions.filter fun c => isFailingReason c.reason).length).sum := by
  rw [inspect_spec] at h
  by_cases hnil : reportEntries pos = []
  · rw [if_pos hnil] at h
    exact absurd h (by simp)
  · rw [if_neg hnil] at h
    cases h
    refine ⟨by simp, rfl, rfl, ?_⟩
    simp [reportEntries, List.length_flatMap, Function.comp_def]

/-- Witness for C9 (amended): the report of the spec's §8 example is a
parallel pair — its two lists have equal length. -/
theorem claim_C9_witness :
    ((⟨[⟨"B", [⟨"SourceFailed"⟩]⟩], ["B is failing: \"SourceFailed\""]⟩ :
        POStatusErrors).FailingPOs).length =
      ((⟨[⟨"B", [⟨"SourceFailed"⟩]⟩], ["B is failing: \"SourceFailed\""]⟩ :
        POStatusErrors).FailingErrors).length :=
  (claim_C9_amended_parallel_pair_per_condition [⟨"B", [⟨"SourceFailed"⟩]⟩]
    ⟨[⟨"B", [⟨"SourceFailed"⟩]⟩], ["B is failing: \"SourceFailed\""]⟩ (by rfl)).1

end AggregatedCO
